import Mathlib

/-!
Verification development for a Telegram-driven Windows agent bot.

The development shallowly embeds the two core components of the system:

* the command dispatch / normalization layer (`src/utils.js`:
  `shouldUsePowerShell`, `detectShell`, `normalizeCmdStart`,
  `rewriteStartChrome`, `executeCommand`), and
* the tool-use orchestration loop (`src/telegram.js`: `processWithClaude`,
  `handleUserText`).

JavaScript regular-expression tests are translated into executable scanners
over `List Char`; JS `\w` is `[A-Za-z0-9_]`, JS `\s` is modelled by its ASCII
subset (space, tab, CR, LF, vertical tab, form feed), and `/i` matching is
modelled by `Char.toLower` comparison (the ASCII fold, which is exact for the
ASCII patterns that appear in the source).  Side effects (process spawning,
file writes, message sends) are modelled by returning a *plan* value that
records which effect the source code would perform, and external outcomes
(the Anthropic service, the tool executor) are universally quantified
function parameters.
-/

/-- ASCII word character, JS regex `\w` = `[A-Za-z0-9_]`. -/
def isWordChar (c : Char) : Bool :=
  c.isAlpha || c.isDigit || c = '_'

/-- JS regex `\s`, restricted to its ASCII part: space, tab, LF, VT, FF, CR. -/
def isJsSpace (c : Char) : Bool :=
  c = ' ' || c = '\t' || c = '\n' || c = '\x0b' || c = '\x0c' || c = '\r'

/-- The apostrophe character (used by the JS char class `[^"']`). -/
def apostropheChar : Char := Char.ofNat 39

/-- JS `String.prototype.trim()`, over the modelled whitespace set.
(Lean's built-in `String.trim` is avoided throughout: its implementation
does not reduce inside the kernel, while this structural version does.) -/
def jsTrim (s : String) : String :=
  String.mk (((s.data.dropWhile isJsSpace).reverse.dropWhile isJsSpace).reverse)

/-- JS `String.prototype.toLowerCase()` (ASCII fold). -/
def jsToLower (s : String) : String := String.mk (s.data.map Char.toLower)

/-- JS `String.prototype.split("\n")`: `""` yields `[""]`, separators at the
ends yield empty segments. -/
def splitOnNewline : List Char → List (List Char)
  | [] => [[]]
  | c :: r =>
    if c = '\n' then [] :: splitOnNewline r
    else
      match splitOnNewline r with
      | h :: t => (c :: h) :: t
      | [] => [[c]]

/-- Strip `pat` from the front of `l`, comparing case-insensitively
(models a `/i` regex literal).  Returns the remainder on success. -/
def stripPrefixCI : List Char → List Char → Option (List Char)
  | [], l => some l
  | _, [] => none
  | p :: ps, c :: cs => if p.toLower = c.toLower then stripPrefixCI ps cs else none

/-- Strip `pat` from the front of `l`, comparing case-sensitively. -/
def stripPrefixCS : List Char → List Char → Option (List Char)
  | [], l => some l
  | _, [] => none
  | p :: ps, c :: cs => if p = c then stripPrefixCS ps cs else none

/-- Does a predicate hold at some suffix position of the list?
(The usual "regex without `^` anchor" scan.) -/
def scanAny (p : List Char → Bool) : List Char → Bool
  | [] => p []
  | l@(_ :: r) => p l || scanAny p r

/-- JS `\b` right after a word character: next char is absent or non-word. -/
def boundaryAfterWord (r : List Char) : Bool :=
  match r with
  | [] => true
  | c :: _ => !isWordChar c

/-- `command.includes("\n")` from `shouldUsePowerShell`. -/
def containsNewline (l : List Char) : Bool := l.contains '\n'

/-- JS regex `/\$\w+/` — a `$` sigil followed by an identifier character. -/
def containsSigil : List Char → Bool
  | [] => false
  | '$' :: c :: r => isWordChar c || containsSigil (c :: r)
  | _ :: r => containsSigil r

/-- The cmdlet verbs listed in `shouldUsePowerShell`'s verb–noun regex. -/
def psVerbs : List String :=
  ["Get", "Set", "New", "Remove", "Write", "Select", "Where", "ForEach",
   "Out", "Format", "Start"]

/-- The verbs accepted after a pipe in `shouldUsePowerShell`. -/
def pipeVerbs : List String := ["Select", "Where", "ForEach", "Out", "Format"]

/-- Does `l` start with `Verb-\w` for one of the given (case-sensitive) verbs?
This is the body of `\b(Verb|…)-\w+\b`; the trailing `\w+\b` is equivalent to
a single word character after the dash (the greedy run always ends at a
boundary). -/
def matchVerbDashAt (verbs : List String) (l : List Char) : Bool :=
  verbs.any fun v =>
    match stripPrefixCS v.data l with
    | some ('-' :: c :: _) => isWordChar c
    | _ => false

/-- JS regex `/\b(Get|Set|New|Remove|Write|Select|Where|ForEach|Out|Format|Start)-\w+\b/`.
`prevWord` tracks whether the previous character was a word character
(the `\b` before the verb requires it was not). -/
def containsVerbNounAux (prevWord : Bool) : List Char → Bool
  | [] => false
  | l@(c :: r) =>
    (!prevWord && matchVerbDashAt psVerbs l) || containsVerbNounAux (isWordChar c) r

def containsVerbNoun (l : List Char) : Bool := containsVerbNounAux false l

/-- JS regex `/\|\s*(Select|Where|ForEach|Out|Format)-\w+\b/`. -/
def matchPipeVerbAt (l : List Char) : Bool :=
  match l with
  | '|' :: r => matchVerbDashAt pipeVerbs (r.dropWhile isJsSpace)
  | _ => false

def containsPipeVerb (l : List Char) : Bool := scanAny matchPipeVerbAt l

/-- `shouldUsePowerShell(command)` from src/utils.js: heuristics — PowerShell
snippets often contain variables, cmdlets, pipelines, or newlines.
(The JS function also returns false for a falsy argument; callers below
guard with truthiness exactly as the source does.) -/
def shouldUsePowerShell (command : String) : Bool :=
  containsNewline command.data ||
  containsSigil command.data ||
  containsVerbNoun command.data ||
  containsPipeVerb command.data

/-- Truthiness of an optional JS string: present and non-empty. -/
def strTruthy (o : Option String) : Bool := o.getD "" ≠ ""

/-- `detectShell({shell, command, script, use_powershell})` from src/utils.js.
`shell` is the raw string argument (the tool schema default is "auto"). -/
def detectShell (shell : String) (command script : Option String)
    (use_powershell : Option Bool) : String :=
  if shell ≠ "" && shell ≠ "auto" then shell
  else
    match use_powershell with
    | some b => if b then "powershell" else "cmd"
    | none =>
      if strTruthy script && shouldUsePowerShell (script.getD "") then "powershell"
      else if strTruthy command && shouldUsePowerShell (command.getD "") then "powershell"
      else "cmd"

/-- `pickScriptExtension(shell, script)` from src/utils.js. -/
def pickScriptExtension (shell : String) (script : Option String) : String :=
  if shell = "powershell" then ".ps1"
  else if shell = "bash" then ".sh"
  else if shell = "cmd" then ".cmd"
  else if strTruthy script && shouldUsePowerShell (script.getD "") then ".ps1"
  else ".cmd"

/-! ## URL and chrome-launch scanners (src/utils.js) -/

/-- Match `https?:\/\/` (case-insensitively) at the head of `l`, returning the
remainder after the scheme. -/
def stripUrlScheme (l : List Char) : Option (List Char) :=
  match stripPrefixCI "http".data l with
  | none => none
  | some r =>
    match stripPrefixCI "s://".data r with
    | some r2 => some r2
    | none => stripPrefixCI "://".data r

/-- JS regex `/https?:\/\/\S+/` matched at the head of `l`:
scheme followed by at least one non-space character. -/
def matchUrlAt (l : List Char) : Bool :=
  match stripUrlScheme l with
  | some (c :: _) => !isJsSpace c
  | _ => false

/-- Truthiness of `extractFirstUrl(text)` / the fingerprint test
`/https?:\/\/\S+/i.test(c)`: the URL regex matches somewhere in `l`. -/
def containsHttpUrl (l : List Char) : Bool := scanAny matchUrlAt l

/-- `looksLikeUrl(maybeUrl)` from src/utils.js:
`/^https?:\/\/\S+$/i.test(s.trim())` — here applied to the already
trimmed argument; the whole string is a scheme plus non-space characters. -/
def looksLikeUrl (s : String) : Bool :=
  match stripUrlScheme (jsTrim s).data with
  | some rest => rest ≠ [] && rest.all (fun c => !isJsSpace c)
  | none => false

/-- `stripLeadingSlashes(s)` from src/utils.js: `s.replace(/^[\\/]+/, "")`. -/
def stripLeadingSlashes (s : String) : String :=
  String.mk (s.data.dropWhile (fun c => c = '\\' || c = '/'))

/-- `isLikelyInvalidWindowsTarget(target)` from src/utils.js:
the trimmed target is exactly `\\` or exactly `\`. -/
def isLikelyInvalidWindowsTarget (target : String) : Bool :=
  jsTrim target = "\\\\" || jsTrim target = "\\"

/-- JS regex `/^start\b/i` at the head of `l` (fingerprint helper). -/
def matchStartWord (l : List Char) : Bool :=
  match stripPrefixCI "start".data l with
  | some r => boundaryAfterWord r
  | none => false

/-- The `(?:\.exe)?\b` tail after a matched `chrome`: greedily try `.exe`
followed by a boundary, falling back to a boundary right after `chrome`
(`.` is a non-word character, so the fallback boundary holds whenever the
greedy branch consumed `.exe` but failed its own boundary).  Returns the
remainder after the match. -/
def chromeOptExeTail (r : List Char) : Option (List Char) :=
  match stripPrefixCI ".exe".data r with
  | some r2 =>
    if boundaryAfterWord r2 then some r2
    else if boundaryAfterWord r then some r else none
  | none => if boundaryAfterWord r then some r else none

/-- JS regex `/\bchrome(\.exe)?\b/i`: `prevWord` tracks the character before
the current position for the leading `\b` (which needs a non-word
predecessor, `chrome` starting with a word character). -/
def containsChromeWordAux (prevWord : Bool) : List Char → Bool
  | [] => false
  | l@(c :: r) =>
    (!prevWord &&
      (match stripPrefixCI "chrome".data l with
       | some r2 => (chromeOptExeTail r2).isSome
       | none => false)) ||
    containsChromeWordAux (isWordChar c) r

def containsChromeWord (l : List Char) : Bool := containsChromeWordAux false l

/-- JS regex `/\bchrome\.exe\b/i` (the GUI-launch interception test). -/
def containsChromeExeWordAux (prevWord : Bool) : List Char → Bool
  | [] => false
  | l@(c :: r) =>
    (!prevWord &&
      (match stripPrefixCI "chrome.exe".data l with
       | some r2 => boundaryAfterWord r2
       | none => false)) ||
    containsChromeExeWordAux (isWordChar c) r

def containsChromeExeWord (l : List Char) : Bool := containsChromeExeWordAux false l

/-- JS regex `/\b--new-window\b/i`.  Note the leading `\b` sits before a
non-word character `-`, so it requires the *previous* character to be a word
character (a quirk of `\b`). -/
def containsNewWindowFlagAux (prevWord : Bool) : List Char → Bool
  | [] => false
  | l@(c :: r) =>
    (prevWord &&
      (match stripPrefixCI "--new-window".data l with
       | some r2 => boundaryAfterWord r2
       | none => false)) ||
    containsNewWindowFlagAux (isWordChar c) r

def containsNewWindowFlag (l : List Char) : Bool := containsNewWindowFlagAux false l

/-- JS regex `/\b--app=/i` (same leading `\b` quirk; nothing after `=`). -/
def containsAppFlagAux (prevWord : Bool) : List Char → Bool
  | [] => false
  | l@(c :: r) =>
    (prevWord && (stripPrefixCI "--app=".data l).isSome) ||
    containsAppFlagAux (isWordChar c) r

def containsAppFlag (l : List Char) : Bool := containsAppFlagAux false l

/-! ## normalizeCmdStart (src/utils.js) -/

/-- JS regex `/^start\s*$/i` — on a whole string: `start` then whitespace. -/
def matchStartOnly (l : List Char) : Bool :=
  match stripPrefixCI "start".data l with
  | some rest => rest.all isJsSpace
  | none => false

/-- JS regex `/^start\s+""\s*$/i`. -/
def matchStartEmptyQuotes (l : List Char) : Bool :=
  match stripPrefixCI "start".data l with
  | some rest =>
    rest.takeWhile isJsSpace ≠ [] &&
    (match rest.dropWhile isJsSpace with
     | '"' :: '"' :: r3 => r3.all isJsSpace
     | _ => false)
  | none => false

/-- JS regex `/^start\s+"[^"]*"\s*$/i` — `start` with a quoted (title-only)
argument and no target. -/
def matchStartQuotedTitle (l : List Char) : Bool :=
  match stripPrefixCI "start".data l with
  | some rest =>
    rest.takeWhile isJsSpace ≠ [] &&
    (match rest.dropWhile isJsSpace with
     | '"' :: r =>
       (match r.dropWhile (fun c => c ≠ '"') with
        | '"' :: tail => tail.all isJsSpace
        | _ => false)
     | _ => false)
  | none => false

/-- The disjunction of the three launch-with-no-target patterns that
`normalizeCmdStart` rejects first (applied to the trimmed command). -/
def emptyLaunchPattern (s : String) : Bool :=
  matchStartOnly s.data || matchStartEmptyQuotes s.data || matchStartQuotedTitle s.data

/-- `\s+` followed by the rest: at least one whitespace character, greedily
consumed (the continuations below always start with a non-space literal). -/
def afterWsPlus (r : List Char) : Option (List Char) :=
  if r.takeWhile isJsSpace ≠ [] then some (r.dropWhile isJsSpace) else none

/-- Candidate remainders after `^start(\s+""\s*)?\s+` — the optional
empty-title group tried first (regex `?` is greedy), then without it. -/
def startTargets (l : List Char) : List (List Char) :=
  match stripPrefixCI "start".data l with
  | none => []
  | some r =>
    let withGroup :=
      match afterWsPlus r with
      | some ('"' :: '"' :: r3) => (afterWsPlus r3).toList
      | _ => []
    withGroup ++ (afterWsPlus r).toList

/-- Capture group 3 of `/^start(\s+""\s*)?\s+([\\/]+)(https?:\/\/\S+)\s*$/i`:
the backslash-prefixed URL after a `start`, if the whole pattern matches. -/
def matchStartSepUrl (l : List Char) : Option String :=
  (startTargets l).findSome? fun t =>
    let seps := t.takeWhile (fun c => c = '\\' || c = '/')
    let r4 := t.dropWhile (fun c => c = '\\' || c = '/')
    if seps = [] then none
    else
      let u := r4.takeWhile (fun c => !isJsSpace c)
      let rest := r4.dropWhile (fun c => !isJsSpace c)
      if matchUrlAt r4 && rest.all isJsSpace then some (String.mk u) else none

/-- JS regexes `/^start(\s+""\s*)?\s+\\\\\s*$/i` and
`/^start(\s+""\s*)?\s+\\\s*$/i` — a `start` whose target is a bare `\\`
or `\`. -/
def matchStartUncRoot (l : List Char) : Bool :=
  (startTargets l).any fun t =>
    match t with
    | '\\' :: '\\' :: rest => rest.all isJsSpace
    | '\\' :: rest => rest.all isJsSpace
    | _ => false

/-- Capture group 2 of `/^start(\s+""\s*)?\s+(\\\\[^\\\s]+)\s*$/i` — a
malformed two-part UNC target (`\\server` with no share segment). -/
def matchStartUncShare (l : List Char) : Option String :=
  (startTargets l).findSome? fun t =>
    match t with
    | '\\' :: '\\' :: rest =>
      let seg := rest.takeWhile (fun c => c ≠ '\\' && !isJsSpace c)
      let r2 := rest.dropWhile (fun c => c ≠ '\\' && !isJsSpace c)
      if seg ≠ [] && r2.all isJsSpace then some ("\\\\" ++ String.mk seg) else none
    | _ => none

/-- The reject reason for a bare/empty/title-only `start`. -/
def startNoTargetReason : String :=
  "Refusing to run 'start' with no target (would trigger 'Windows cannot find \\\\' dialog). Specify an app or URL."

/-- The reject reason for a backslash-prefixed URL; ends with the corrected
address. -/
def urlRejectReason (stripped : String) : String :=
  "Looks like a URL with a leading \\\\ or /. " ++
  "Use the URL without the leading slash, or ask the bot to browse it. " ++
  "Example: " ++ stripped

/-- The reject reason for a root-only UNC target. -/
def uncRootRejectReason : String :=
  "Refusing to run an invalid Windows target path (\\\\) that triggers a popup."

/-- The reject reason for a malformed two-part UNC target. -/
def uncShareRejectReason (unc : String) : String :=
  "Refusing to run a malformed UNC path (" ++ unc ++ "). " ++
  "UNC paths must be like \\\\server\\\\share\\\\..."

/-- The three-way outcome of `normalizeCmdStart`. -/
inductive NormAction where
  | reject (reason : String)
  | rewrite (command : String)
  | ok (command : String)
deriving DecidableEq

/-- `normalizeCmdStart(command)` from src/utils.js: normalize the common bad
`start` patterns that cause Windows GUI popups. -/
def normalizeCmdStart (command : String) : NormAction :=
  let trimmed := jsTrim command
  if matchStartOnly trimmed.data || matchStartEmptyQuotes trimmed.data ||
      matchStartQuotedTitle trimmed.data then
    .reject startNoTargetReason
  else
    let stripped := stripLeadingSlashes trimmed
    if stripped ≠ trimmed && looksLikeUrl stripped then
      .reject (urlRejectReason stripped)
    else
      match matchStartSepUrl trimmed.data with
      | some url => .rewrite ("start \"\" \"" ++ url ++ "\"")
      | none =>
        if matchStartUncRoot trimmed.data then .reject uncRootRejectReason
        else
          match matchStartUncShare trimmed.data with
          | some unc => .reject (uncShareRejectReason unc)
          | none => .ok trimmed

/-! ## rewriteStartChrome and the executeCommand plan (src/utils.js) -/

/-- `_quoteCmdArg(s)` from src/utils.js: quote (escaping embedded quotes as
`\"`) when the value contains a space. -/
def _quoteCmdArg (s : String) : String :=
  if s = "" then s
  else if s.data.contains ' ' then
    "\"" ++ String.mk (s.data.flatMap fun c => if c = '"' then ['\\', '"'] else [c]) ++ "\""
  else s

/-- `.*chrome\.exe…` nondeterministic tail: `B` matches `chrome\.exe` here or
consumes one non-newline character (`.`), `A` additionally allows leading
JS whitespace (`\s*` before the `.+`).  Together `matchWsDotPlusChrome`
matches `\s+.+chrome\.exe` at the head of the list. -/
def dotStarChrome : List Char → Bool
  | [] => false
  | l@(c :: r) => (stripPrefixCI "chrome.exe".data l).isSome || (c ≠ '\n' && dotStarChrome r)

def wsStarDotPlusChrome : List Char → Bool
  | [] => false
  | c :: r => (isJsSpace c && wsStarDotPlusChrome r) || (c ≠ '\n' && dotStarChrome r)

def matchWsDotPlusChrome : List Char → Bool
  | [] => false
  | c :: r => isJsSpace c && wsStarDotPlusChrome r

/-- JS regex `/^start\s+""\s+.+chrome\.exe/i`:
after `start` and whitespace, an empty title `""`, then `\s+.+chrome\.exe`. -/
def matchStartQuoteDotChrome (l : List Char) : Bool :=
  match stripPrefixCI "start".data l with
  | none => false
  | some r =>
    match afterWsPlus r with
    | some ('"' :: '"' :: r2) => matchWsDotPlusChrome r2
    | _ => false

/-- `[^"']*chrome\.exe`: `chrome.exe` (case-insensitively) reachable without
crossing a quote or apostrophe. -/
def chromeAfterNoQuotes : List Char → Bool
  | [] => false
  | l@(c :: r) =>
    (stripPrefixCI "chrome.exe".data l).isSome ||
    (c ≠ '"' && c ≠ apostropheChar && chromeAfterNoQuotes r)

/-- JS regex `/["']?[A-Za-z]:\\[^"']*chrome\.exe/i` tested anywhere in the
string (the optional leading quote does not affect matchability). -/
def containsDrivePathChrome : List Char → Bool
  | [] => false
  | c :: r =>
    (c.isAlpha &&
      (match r with
       | ':' :: '\\' :: r2 => chromeAfterNoQuotes r2
       | _ => false)) ||
    containsDrivePathChrome r

/-- The `chrome(?:\.exe)?\b(.*)$` tail shared by three rewrite patterns:
match `chrome`, the optional `.exe` with its boundary, and require the
remaining capture to be newline-free (`.` cannot cross a newline and `$`
only matches at the very end of the input in JS without `/m`). -/
def chromeCaptureTail (l : List Char) : Option (List Char) :=
  match stripPrefixCI "chrome".data l with
  | none => none
  | some r =>
    match chromeOptExeTail r with
    | some tail => if tail.contains '\n' then none else some tail
    | none => none

/-- Capture group 1 of `/^start\s+chrome(?:\.exe)?\b(.*)$/i`. -/
def matchStartChromeRest (l : List Char) : Option (List Char) :=
  match stripPrefixCI "start".data l with
  | none => none
  | some r =>
    match afterWsPlus r with
    | some r2 => chromeCaptureTail r2
    | none => none

/-- Capture group 1 of `/^start\s+""\s+chrome(?:\.exe)?\b(.*)$/i`. -/
def matchStartQuotesChromeRest (l : List Char) : Option (List Char) :=
  match stripPrefixCI "start".data l with
  | none => none
  | some r =>
    match afterWsPlus r with
    | some ('"' :: '"' :: r2) =>
      (match afterWsPlus r2 with
       | some r3 => chromeCaptureTail r3
       | none => none)
    | _ => none

/-- Capture group 1 of `/^chrome(?:\.exe)?\b(.*)$/i`. -/
def matchChromeDirectRest (l : List Char) : Option (List Char) :=
  chromeCaptureTail l

/-- The result shape of `rewriteStartChrome`. -/
structure RewriteResult where
  changed : Bool
  command : String
  didTryChrome : Bool
deriving DecidableEq

/-- Rebuild `start "" ${_quoteCmdArg(chromeExe)}${rest ? ` ${rest}` : ""}`.trim(). -/
def startChromeRewrite (chromeExe : String) (rest : String) : String :=
  jsTrim ("start \"\" " ++ _quoteCmdArg chromeExe ++
    (if rest ≠ "" then " " ++ rest else ""))

/-- `rewriteStartChrome(command)` from src/utils.js.  `chromeExe` stands for
the result of `resolveChromeExe()` (an environment lookup over config and
the standard install locations). -/
def rewriteStartChrome (chromeExe : String) (command : String) : RewriteResult :=
  let trimmed := jsTrim command
  if trimmed = "" then ⟨false, trimmed, false⟩
  else if matchStartQuoteDotChrome trimmed.data ||
      ("start ".data.isPrefixOf trimmed.data && containsDrivePathChrome trimmed.data) then
    ⟨false, trimmed, true⟩
  else
    match matchStartChromeRest trimmed.data with
    | some rest => ⟨true, startChromeRewrite chromeExe (jsTrim (String.mk rest)), true⟩
    | none =>
      match matchStartQuotesChromeRest trimmed.data with
      | some rest => ⟨true, startChromeRewrite chromeExe (jsTrim (String.mk rest)), true⟩
      | none =>
        match matchChromeDirectRest trimmed.data with
        | some rest =>
          if jsToLower chromeExe = "chrome.exe" then ⟨false, trimmed, true⟩
          else
            ⟨true, jsTrim (_quoteCmdArg chromeExe ++
              (if jsTrim (String.mk rest) ≠ "" then " " ++ jsTrim (String.mk rest) else "")),
              true⟩
        | none => ⟨false, trimmed, false⟩

/-- The `{success, error, output}` early-return shape of `executeCommand`. -/
structure ExecResult where
  success : Bool
  error : Option String := none
  output : Option String := none
deriving DecidableEq

/-- What `executeCommand` decides to do, up to the side-effecting boundary:
either an early structured-error return (no process spawned, no file
written), a detached Chrome spawn (`tryLaunchChromeDetached`), running the
given text through an interpreter (`execPromise` on the built command line,
whose exact quoting/encoding is a serialization detail), or writing the
script to a temp file with the chosen extension and running it. -/
inductive ExecAction where
  | reject (result : ExecResult)
  | launchChromeDetached (command : String)
  | runInterpreter (shell : String) (command : String)
  | runScriptFile (shell : String) (ext : String) (script : String) (file_path : Option String)
deriving DecidableEq

/-- The truthiness test `typeof x === "string" && x.trim().length > 0`. -/
def strHasContent (o : Option String) : Bool :=
  match o with
  | some s => jsTrim s ≠ ""
  | none => false

/-- The GUI-launch interception test applied to the (possibly rewritten)
command: `\bchrome\.exe\b` together with a URL, `--new-window` or `--app=`. -/
def chromeGuiLaunchCheck (c : String) : Bool :=
  containsChromeExeWord c.data &&
  (containsHttpUrl c.data || containsNewWindowFlag c.data || containsAppFlag c.data)

/-- `executeCommand({command, script, shell, file_path, timeout_ms, cwd,
use_powershell})` from src/utils.js, as a plan: everything the function
decides before handing over to the operating system.  `timeout_ms` and `cwd`
only parameterize the eventual spawn and are omitted. -/
def executeCommandPlan (chromeExe : String) (command script : Option String)
    (shell : String) (file_path : Option String) (use_powershell : Option Bool) :
    ExecAction :=
  let effectiveShell := detectShell shell command script use_powershell
  let hasScript := strHasContent script
  let hasCommand := strHasContent command
  if !hasScript && !hasCommand then
    .reject ⟨false, some "No command/script provided.", some ""⟩
  else if hasScript then
    let s := script.getD ""
    .runScriptFile effectiveShell (pickScriptExtension effectiveShell (some s)) s file_path
  else
    let c0 := command.getD ""
    -- The cmd-only normalization block (lines 1368–1399 of src/utils.js).
    let step :=
      if effectiveShell = "cmd" then
        let rw := rewriteStartChrome chromeExe c0
        let c1 := if rw.changed then rw.command else c0
        if rw.didTryChrome then Sum.inl (ExecAction.launchChromeDetached c1)
        else if chromeGuiLaunchCheck c1 then Sum.inl (ExecAction.launchChromeDetached c1)
        else
          match normalizeCmdStart c1 with
          | .reject reason => Sum.inl (ExecAction.reject ⟨false, some reason, some ""⟩)
          | .rewrite c2 =>
            if isLikelyInvalidWindowsTarget (jsTrim c2) then
              Sum.inl (ExecAction.reject
                ⟨false, some "Refusing to run an invalid Windows target path (\\\\).", some ""⟩)
            else Sum.inr c2
          | .ok _ =>
            if isLikelyInvalidWindowsTarget (jsTrim c0) then
              Sum.inl (ExecAction.reject
                ⟨false, some "Refusing to run an invalid Windows target path (\\\\).", some ""⟩)
            else Sum.inr c0
      else Sum.inr c0
    match step with
    | Sum.inl act => act
    | Sum.inr c =>
      if effectiveShell = "powershell" then .runInterpreter "powershell" c
      else if effectiveShell = "bash" then .runInterpreter "bash" c
      else
        -- final cmd.exe branch, with its own bare-start guard
        let safeCmd := jsTrim c
        if matchStartOnly safeCmd.data || matchStartEmptyQuotes safeCmd.data then
          .reject ⟨false,
            some "Refusing to run 'start' with no target (would trigger Windows 'cannot find \\\\' dialog).",
            some ""⟩
        else .runInterpreter "cmd" c

/-! ## Tool-use orchestrator (src/telegram.js, `processWithClaude`) -/

/-- The structured arguments of a tool-use request that the orchestrator
inspects (`input.url`, `input.task`, `input.command`); absent JS fields
coerce to `""` via `(x || "").toString()`. -/
structure ToolInput where
  url : String := ""
  task : String := ""
  command : String := ""
deriving DecidableEq

/-- A `tool_use` content block: `{id, name, input}`. -/
structure ToolUse where
  id : String
  name : String
  input : ToolInput
deriving DecidableEq

/-- A content block of an Anthropic message: text or a tool-use request
(thinking blocks are never inspected by the orchestrator and are omitted). -/
inductive Block where
  | text (text : String)
  | toolUse (toolUse : ToolUse)
deriving DecidableEq

/-- A reasoning-service response: `{stop_reason, content}`. -/
structure Response where
  stop_reason : String
  content : List Block
deriving DecidableEq

/-- The uniform tool-result envelope the orchestrator serializes into a
`tool_result` block (`success`, plus the optional fields the orchestrator
itself attaches). -/
structure ToolResult where
  success : Bool := false
  deferred : Bool := false
  deduped : Bool := false
  error : Option String := none
  note : Option String := none
  fingerprint : Option String := none
  output : Option String := none
deriving DecidableEq

/-- A `tool_result` block: `{type:"tool_result", tool_use_id, content:
JSON.stringify(payload)}`; the payload is kept structured here. -/
structure ToolResultBlock where
  tool_use_id : String
  payload : ToolResult
deriving DecidableEq

/-- A conversation message's content: plain text (user input), assistant
content blocks, or the synthetic user turn of tool results. -/
inductive MsgContent where
  | ofText (text : String)
  | ofBlocks (blocks : List Block)
  | ofResults (results : List ToolResultBlock)
deriving DecidableEq

/-- A conversation message `{role, content}`. -/
structure Msg where
  role : String
  content : MsgContent
deriving DecidableEq

/-- `fingerprintBrowserAction()` from src/telegram.js: the dedup key for
high-impact browser actions (browse_website, and execute_command invocations
that open URLs or launch Chrome). -/
def fingerprintBrowserAction (name : String) (input : ToolInput) : Option String :=
  if name = "browse_website" then
    let u := jsTrim input.url
    let t := jsTrim input.task
    if u = "" then none else some ("browse:" ++ u ++ "|" ++ t)
  else if name = "execute_command" then
    let c := jsTrim input.command
    if c = "" then none
    else
      let isChrome := containsChromeWord c.data
      let hasUrl := containsHttpUrl c.data
      let isStartUrl := matchStartWord c.data && hasUrl
      let isChromeLaunch := isChrome && (hasUrl || matchStartWord c.data)
      if !isStartUrl && !isChromeLaunch then none else some ("exec:" ++ c)
  else none

/-- The deferred-by-step-mode result payload (src/telegram.js lines 294–298). -/
def deferredResult : ToolResult :=
  { success := false, deferred := true,
    error := some "Deferred by step-by-step mode. The agent should continue in a follow-up step." }

/-- The deduplicated-action result payload (src/telegram.js lines 300–305). -/
def dedupedResult (fp : Option String) : ToolResult :=
  { success := true, deduped := true,
    note := some "Skipped duplicate browser action (already executed in this request).",
    fingerprint := fp }

/-- The per-response mutable state of the tool loop: `executedThisResponse`,
the run-wide `executedBrowserActions` set (modelled as a list of
fingerprints) and the `stopAfterBrowseSuccess` flag. -/
structure StepState where
  executedThisResponse : Nat
  executedBrowserActions : List String
  stopAfterBrowseSuccess : Bool
deriving DecidableEq

/-- The dedup test `fp && executedBrowserActions.has(fp)`. -/
def fpHit (fp : Option String) (acts : List String) : Bool :=
  match fp with
  | some f => acts.contains f
  | none => false

/-- Record a successful action's fingerprint (`executedBrowserActions.add(fp)`). -/
def recordFp (acts : List String) (fp : Option String) (success : Bool) : List String :=
  match fp with
  | some f => if success then acts.insert f else acts
  | none => acts

/-- The known-tool dispatch names of the orchestrator's if-chain. -/
def knownToolNames : List String :=
  ["execute_command", "take_screenshot", "capture_webcam_photo", "browse_website", "run_healer"]

/-- One iteration of the `for (const toolUse of toolUses)` body in
`processWithClaude` (src/telegram.js lines 262–342).  `exec` is the external
outcome of `toolApi.runTool` for the dispatched tool; the progress messages
sent to the chat are external effects with no influence on state.  Returns
the tool result payload and the updated state. -/
def runToolUse (stepConfirm stopAfterBrowse : Bool)
    (exec : String → ToolInput → ToolResult) (st : StepState) (tu : ToolUse) :
    ToolResult × StepState :=
  let shouldExecute := !(stepConfirm && decide (1 ≤ st.executedThisResponse))
  let fp := fingerprintBrowserAction tu.name tu.input
  if !shouldExecute then
    (deferredResult, st)
  else if fpHit fp st.executedBrowserActions then
    (dedupedResult fp, st)
  else if tu.name = "execute_command" then
    let r := exec "execute_command" tu.input
    (r, { st with
            executedBrowserActions := recordFp st.executedBrowserActions fp r.success,
            executedThisResponse := st.executedThisResponse + 1 })
  else if tu.name = "take_screenshot" then
    (exec "take_screenshot" tu.input,
      { st with executedThisResponse := st.executedThisResponse + 1 })
  else if tu.name = "capture_webcam_photo" then
    (exec "capture_webcam_photo" tu.input,
      { st with executedThisResponse := st.executedThisResponse + 1 })
  else if tu.name = "browse_website" then
    let r := exec "browse_website" tu.input
    (r, { executedBrowserActions := recordFp st.executedBrowserActions fp r.success,
          executedThisResponse := st.executedThisResponse + 1,
          stopAfterBrowseSuccess := st.stopAfterBrowseSuccess || (stopAfterBrowse && r.success) })
  else if tu.name = "run_healer" then
    (exec "run_healer" tu.input,
      { st with executedThisResponse := st.executedThisResponse + 1 })
  else
    ({ success := false, error := some ("Unknown tool: " ++ tu.name) }, st)

/-- The whole `for` loop over one response's tool uses, producing the
`toolResultsBlocks` list (one block per request, carrying its `id`) and the
final state. -/
def processToolUses (stepConfirm stopAfterBrowse : Bool)
    (exec : String → ToolInput → ToolResult) (st : StepState) :
    List ToolUse → List ToolResultBlock × StepState
  | [] => ([], st)
  | tu :: rest =>
    let pr := runToolUse stepConfirm stopAfterBrowse exec st tu
    let recRest := processToolUses stepConfirm stopAfterBrowse exec pr.2 rest
    (⟨tu.id, pr.1⟩ :: recRest.1, recRest.2)

/-- `content.filter(block => block.type === "tool_use")`. -/
def toolUsesOf (bs : List Block) : List ToolUse :=
  bs.filterMap fun b => match b with | .toolUse t => some t | _ => none

/-- The text extraction at the end of `processWithClaude`: join the text
blocks with newlines. -/
def textOf (bs : List Block) : String :=
  String.intercalate "\n" (bs.filterMap fun b => match b with | .text s => some s | _ => none)

/-- JS regex `/continue\s+or\s+stop\?/i` matched at the head of `l`. -/
def matchContinueOrStopAt (l : List Char) : Bool :=
  match stripPrefixCI "continue".data l with
  | none => false
  | some r =>
    match afterWsPlus r with
    | none => false
    | some r2 =>
      match stripPrefixCI "or".data r2 with
      | none => false
      | some r3 =>
        match afterWsPlus r3 with
        | none => false
        | some r4 => (stripPrefixCI "stop?".data r4).isSome

/-- JS regex `/would you like me to (take|continue|proceed)/i` at the head. -/
def matchWouldYouLikeAt (l : List Char) : Bool :=
  match stripPrefixCI "would you like me to ".data l with
  | none => false
  | some r =>
    (stripPrefixCI "take".data r).isSome ||
    (stripPrefixCI "continue".data r).isSome ||
    (stripPrefixCI "proceed".data r).isSome

/-- The per-line denylist of continuation prompts (src/telegram.js 387–391). -/
def denyLine (line : String) : Bool :=
  scanAny matchContinueOrStopAt line.data || scanAny matchWouldYouLikeAt line.data

/-- The final text cleanup: split on newlines, drop denylisted lines,
re-join and trim. -/
def finalText (bs : List Block) : String :=
  jsTrim (String.intercalate "\n"
    (((splitOnNewline (textOf bs).data).map String.mk).filter fun l => !denyLine l))

/-- The post-loop tail of `processWithClaude` (src/telegram.js 374–397):
push the final assistant response into the conversation and produce the
reply text, falling back to `"Task completed."` when empty. -/
def finishRun (response : Response) (convo : List Msg) : String × List Msg :=
  let convo := convo ++ [⟨"assistant", .ofBlocks response.content⟩]
  let t := finalText response.content
  (if t = "" then "Task completed." else t, convo)

/-- The `while (response.stop_reason === "tool_use")` loop of
`processWithClaude`.  `fuel` is `MAX_AGENT_ITERATIONS - iterations`: the
source increments `iterations` on loop entry and breaks when it exceeds the
cap, which is exactly `fuel = 0` here.  `svc callIdx` is the outcome of the
`callIdx`-th `anthropic.messages.create` call of this run (`Except.error`
models the API call throwing; the deep-thinking retry collapses into one
outcome since it is retried transparently within the same round).  On a
thrown service call the surrounding `catch` returns the *original*
`messages` argument `msgs0`, not the accumulated conversation. -/
def agentLoop (stepConfirm stopAfterBrowse allowTools : Bool)
    (exec : String → ToolInput → ToolResult)
    (svc : Nat → Except String Response) (msgs0 : List Msg) :
    Nat → Nat → Response → List String → List Msg → String × List Msg
  | fuel, callIdx, response, acts, convo =>
    if response.stop_reason = "tool_use" then
      match fuel with
      | 0 => finishRun response convo
      | fuel' + 1 =>
        if !allowTools then finishRun response convo
        else
          let tus := toolUsesOf response.content
          if tus.isEmpty then finishRun response convo
          else
            let pr := processToolUses stepConfirm stopAfterBrowse exec
              ⟨0, acts, false⟩ tus
            let convo' := convo ++
              [⟨"assistant", .ofBlocks response.content⟩, ⟨"user", .ofResults pr.1⟩]
            if pr.2.stopAfterBrowseSuccess then
              ("Browser task completed.", convo')
            else
              match svc callIdx with
              | .error e => ("Error: " ++ e, msgs0)
              | .ok next =>
                agentLoop stepConfirm stopAfterBrowse allowTools exec svc msgs0
                  fuel' (callIdx + 1) next pr.2.executedBrowserActions convo'
    else finishRun response convo

/-- `processWithClaude(messages, chatId, options)` from src/telegram.js,
with the external effects abstracted: returns
`{replyText, updatedMessages}`.  A failure of the very first service call is
caught by the surrounding `catch` and returns the input `messages`
unchanged with an `Error:` reply. -/
def processWithClaude (stepConfirm stopAfterBrowse allowTools : Bool)
    (maxIterations : Nat) (exec : String → ToolInput → ToolResult)
    (svc : Nat → Except String Response) (messages : List Msg) :
    String × List Msg :=
  match svc 0 with
  | .error e => ("Error: " ++ e, messages)
  | .ok response =>
    agentLoop stepConfirm stopAfterBrowse allowTools exec svc messages
      maxIterations 1 response [] messages

/-- `MAX_HISTORY_MESSAGES` from src/telegram.js. -/
def MAX_HISTORY_MESSAGES : Nat := 40

/-- `trimHistory(messages)` from src/telegram.js: keep the most recent
`MAX_HISTORY_MESSAGES` entries. -/
def trimHistory (messages : List Msg) : List Msg :=
  if messages.length ≤ MAX_HISTORY_MESSAGES then messages
  else messages.drop (messages.length - MAX_HISTORY_MESSAGES)

/-- The user message appended by `handleUserText`. -/
def userTextMsg (text : String) : Msg := ⟨"user", .ofText text⟩

/-- `handleUserText(chatId, text)` from src/telegram.js: append the new user
text to the prior history, run `processWithClaude` on the trimmed history,
persist the trimmed updated history, and reply.  Returns
`(replyText, persisted history)`. -/
def handleUserText (stepConfirm stopAfterBrowse : Bool) (maxIterations : Nat)
    (exec : String → ToolInput → ToolResult)
    (svc : Nat → Except String Response) (prior : List Msg) (text : String) :
    String × List Msg :=
  let next := prior ++ [userTextMsg text]
  let res := processWithClaude stepConfirm stopAfterBrowse true maxIterations exec svc
    (trimHistory next)
  (res.1, trimHistory res.2)

/-- The shape of everything `processWithClaude` appends to the conversation:
a sequence of (assistant tool-use turn, user tool-results turn) pairs — the
results carrying exactly the requested ids, in order — optionally closed by
one final assistant message (absent when the run stops right after a
successful browse or when a mid-run service failure discards the appended
turns). -/
inductive GoodTail : List Msg → Prop where
  | nil : GoodTail []
  | final (bs : List Block) : GoodTail [⟨"assistant", .ofBlocks bs⟩]
  | round (bs : List Block) (rs : List ToolResultBlock) (rest : List Msg) :
      toolUsesOf bs ≠ [] →
      rs.map (fun r => r.tool_use_id) = (toolUsesOf bs).map (fun tu => tu.id) →
      GoodTail rest →
      GoodTail (⟨"assistant", .ofBlocks bs⟩ :: ⟨"user", .ofResults rs⟩ :: rest)

/-! # Dispatcher theorems -/

/-- Helper: with no explicit hints, auto-detection selects `cmd` whenever the
PowerShell heuristic rejects the command text. -/
theorem detectShell_auto_cmd (c : String) (h : shouldUsePowerShell c = false) :
    detectShell "auto" (some c) none none = "cmd" := by
  unfold detectShell
  by_cases hc : c = "" <;> simp [strTruthy, hc, h]

/-- Helper: when `rewriteStartChrome` did not recognize a Chrome launch, it
leaves the (trimmed) command unchanged. -/
theorem rewriteStartChrome_noTry (chromeExe command : String)
    (h : (rewriteStartChrome chromeExe command).didTryChrome = false) :
    rewriteStartChrome chromeExe command = ⟨false, jsTrim command, false⟩ := by
  unfold rewriteStartChrome at h ⊢
  by_cases h1 : jsTrim command = ""
  · simp [h1]
  · simp only [h1, if_false] at h ⊢
    by_cases h2 : (matchStartQuoteDotChrome (jsTrim command).data ||
        ("start ".data.isPrefixOf (jsTrim command).data &&
          containsDrivePathChrome (jsTrim command).data)) = true
    · rw [if_pos h2] at h
      simp at h
    · rw [if_neg h2] at h ⊢
      rcases h3 : matchStartChromeRest (jsTrim command).data with _ | rest
      · rw [h3] at h
        rcases h4 : matchStartQuotesChromeRest (jsTrim command).data with _ | rest
        · rw [h4] at h
          rcases h5 : matchChromeDirectRest (jsTrim command).data with _ | rest
          · rfl
          · rw [h5] at h
            simp [apply_ite] at h
        · rw [h4] at h
          simp at h
      · rw [h3] at h
        simp at h

/-- C10: when `executeCommand` is called with neither a non-empty command
string nor a non-empty script string, it returns
`{success:false, error:"No command/script provided.", output:""}` without
spawning any process or writing any temporary file (the `.reject` plan
performs no effect). -/
theorem executeCommand_no_input (chromeExe : String) (command script : Option String)
    (shell : String) (fp : Option String) (up : Option Bool)
    (hc : strHasContent command = false) (hs : strHasContent script = false) :
    executeCommandPlan chromeExe command script shell fp up =
      ExecAction.reject ⟨false, some "No command/script provided.", some ""⟩ := by
  unfold executeCommandPlan
  simp [hc, hs]

/-- Witness for C10 at `command = undefined`, `script = "   "`. -/
theorem executeCommand_no_input_witness :
    strHasContent (none : Option String) = false ∧ strHasContent (some "   ") = false ∧
    executeCommandPlan "chrome.exe" none (some "   ") "auto" none none =
      ExecAction.reject ⟨false, some "No command/script provided.", some ""⟩ :=
  ⟨by decide, by decide,
    executeCommand_no_input "chrome.exe" none (some "   ") "auto" none none
      (by decide) (by decide)⟩

/-- C9: with no explicit shell hint, the dispatcher selects the structured
shell (PowerShell) if and only if the command text matches the heuristic
(newline, `$` sigil + identifier, cmdlet verb–noun token, or pipe into a
cmdlet verb); an explicit shell hint always overrides the heuristic; and the
concrete scenario — text containing a newline and a `Get-Process` token with
no hint — selects PowerShell. -/
theorem shellSelection_heuristic :
    (∀ command : String,
      (detectShell "auto" (some command) none none = "powershell" ↔
        shouldUsePowerShell command = true)) ∧
    (∀ (shellHint : String) (command script : Option String) (up : Option Bool),
      shellHint ≠ "" → shellHint ≠ "auto" →
      detectShell shellHint command script up = shellHint) ∧
    detectShell "auto" (some "echo hi\nGet-Process") none none = "powershell" := by
  refine ⟨fun command => ?_, fun s c sc up h1 h2 => ?_, by decide⟩
  · by_cases hc : command = ""
    · subst hc; decide
    · by_cases hp : shouldUsePowerShell command = true
      · simp [detectShell, strTruthy, hc, hp]
      · simp only [Bool.not_eq_true] at hp
        simp [detectShell, strTruthy, hc, hp]
  · unfold detectShell
    simp [h1, h2]

/-- Witness for C9: an explicit `bash` hint overrides a PowerShell-looking
command, and the heuristic equivalence evaluated at `"dir\nGet-Process"`. -/
theorem shellSelection_heuristic_witness :
    detectShell "bash" (some "dir\nGet-Process") none none = "bash" ∧
    (detectShell "auto" (some "dir\nGet-Process") none none = "powershell" ↔
      shouldUsePowerShell "dir\nGet-Process" = true) :=
  ⟨shellSelection_heuristic.2.1 "bash" (some "dir\nGet-Process") none none
     (by decide) (by decide),
   shellSelection_heuristic.1 "dir\nGet-Process"⟩

/-- Helper: a string matching one of the empty-launch-target patterns is
non-empty. -/
theorem emptyLaunchPattern_ne_empty (s : String) (h : emptyLaunchPattern s = true) :
    s ≠ "" := by
  intro h0
  rw [h0] at h
  exact absurd h (by decide)

/-- Helper: the plan for a command that auto-detects to `cmd`, is not a
Chrome launch, and whose `normalizeCmdStart` rejects, is that rejection. -/
theorem executeCommandPlan_cmd_reject (chromeExe c reason : String)
    (hps : shouldUsePowerShell c = false)
    (htry : (rewriteStartChrome chromeExe c).didTryChrome = false)
    (hgui : chromeGuiLaunchCheck c = false)
    (htrim : jsTrim c ≠ "")
    (hnorm : normalizeCmdStart c = .reject reason) :
    executeCommandPlan chromeExe (some c) none "auto" none none =
      ExecAction.reject ⟨false, some reason, some ""⟩ := by
  have hrw := rewriteStartChrome_noTry chromeExe c htry
  unfold executeCommandPlan
  rw [detectShell_auto_cmd c hps]
  simp only [strHasContent, htrim, hrw]
  simp [hrw, hgui, hnorm, htrim]

/-- Helper: `normalizeCmdStart` rejects with the no-target reason whenever the
trimmed command matches the empty-launch-target pattern.  (That disjunction
is the first check of the function.) -/
theorem normalizeCmdStart_emptyLaunch (c : String)
    (h : emptyLaunchPattern (jsTrim c) = true) :
    normalizeCmdStart c = .reject startNoTargetReason := by
  unfold normalizeCmdStart
  unfold emptyLaunchPattern at h
  simp [h]

/-- Helper: rebuilding a string from its character data is the identity. -/
theorem stringMk_data (s : String) : String.mk s.data = s := by
  cases s
  rfl

/-- Helper: a string whose leading path separators are strippable starts with
`\` or `/`. -/
theorem head_sep_of_strip_ne (s : String) (hne : stripLeadingSlashes s ≠ s) :
    ∃ c r, s.data = c :: r ∧ (c = '\\' ∨ c = '/') := by
  rcases hd : s.data with _ | ⟨c, r⟩
  · exfalso
    apply hne
    unfold stripLeadingSlashes
    rw [hd]
    show String.mk [] = s
    rw [← stringMk_data s, hd]
  · by_cases hc : (c = '\\' || c = '/') = true
    · exact ⟨c, r, rfl, by simpa using hc⟩
    · exfalso
      apply hne
      unfold stripLeadingSlashes
      rw [hd, List.dropWhile_cons, if_neg (by simpa using hc)]
      rw [← stringMk_data s, hd]

/-- Helper: a command starting with a path separator cannot match any of the
(`start`-anchored) empty-launch-target patterns. -/
theorem emptyLaunchPattern_of_sep (s : String) (hne : stripLeadingSlashes s ≠ s) :
    emptyLaunchPattern s = false := by
  obtain ⟨c, r, hd, hc⟩ := head_sep_of_strip_ne s hne
  have hstrip : stripPrefixCI "start".data (c :: r) = none := by
    rw [show "start".data = 's' :: "tart".data from rfl]
    rcases hc with rfl | rfl <;>
      · simp only [stripPrefixCI]
        rw [if_neg (by decide)]
  unfold emptyLaunchPattern matchStartOnly matchStartEmptyQuotes matchStartQuotedTitle
  rw [hd, hstrip]
  rfl

/-- Helper: `normalizeCmdStart` rejects a leading-separator URL with the
corrected address in the reason. -/
theorem normalizeCmdStart_leadingSepUrl (c : String)
    (hsep : stripLeadingSlashes (jsTrim c) ≠ jsTrim c)
    (hurl : looksLikeUrl (stripLeadingSlashes (jsTrim c)) = true) :
    normalizeCmdStart c = .reject (urlRejectReason (stripLeadingSlashes (jsTrim c))) := by
  have hpat := emptyLaunchPattern_of_sep (jsTrim c) hsep
  unfold normalizeCmdStart
  unfold emptyLaunchPattern at hpat
  simp [hpat, hsep, hurl]

/-- C5 (amended): every command that reaches the basic-interpreter
normalization (its text auto-detects to `cmd` and it is not intercepted as a
Chrome launch) and whose trimmed text matches the empty-launch-target
pattern — bare `start`, or `start` with an empty or quote-only target — is
rejected by `executeCommand` with `success:false`, an error containing
"Refusing to run", and no process spawned (`.reject` performs no effect). -/
theorem startEmptyTarget_rejected (chromeExe c : String)
    (hps : shouldUsePowerShell c = false)
    (htry : (rewriteStartChrome chromeExe c).didTryChrome = false)
    (hgui : chromeGuiLaunchCheck c = false)
    (hpat : emptyLaunchPattern (jsTrim c) = true) :
    executeCommandPlan chromeExe (some c) none "auto" none none =
      ExecAction.reject ⟨false, some startNoTargetReason, some ""⟩ ∧
    ∃ rest, startNoTargetReason = "Refusing to run" ++ rest :=
  ⟨executeCommandPlan_cmd_reject chromeExe c startNoTargetReason hps htry hgui
      (emptyLaunchPattern_ne_empty _ hpat) (normalizeCmdStart_emptyLaunch c hpat),
   ⟨" 'start' with no target (would trigger 'Windows cannot find \\\\' dialog). Specify an app or URL.",
    rfl⟩⟩

/-- C5 counterexample: `start "$x"` is a `start` with a quote-only target —
it matches the empty-launch-target pattern — yet `executeCommand` does not
reject it: the `$x` sigil routes it to the PowerShell interpreter, which
spawns a process and produces no "Refusing to run" error. -/
theorem startEmptyTarget_counterexample :
    emptyLaunchPattern (jsTrim "start \"$x\"") = true ∧
    executeCommandPlan "chrome.exe" (some "start \"$x\"") none "auto" none none =
      ExecAction.runInterpreter "powershell" "start \"$x\"" :=
  ⟨by decide, by decide⟩

/-- Witness for C5 at the spec's scenario, input `"start"`. -/
theorem startEmptyTarget_rejected_witness :
    executeCommandPlan "chrome.exe" (some "start") none "auto" none none =
      ExecAction.reject ⟨false, some startNoTargetReason, some ""⟩ ∧
    ∃ rest, startNoTargetReason = "Refusing to run" ++ rest :=
  startEmptyTarget_rejected "chrome.exe" "start" (by decide) (by decide) (by decide)
    (by decide)

/-- C6 (amended): every command that reaches the basic-interpreter
normalization (auto-detects to `cmd`, not intercepted as a Chrome launch)
and consists of an http(s) URL prefixed with leading path separators is
rejected by `executeCommand` without executing anything, and the error text
contains the corrected address with the leading separators removed. -/
theorem leadingSlashUrl_rejected (chromeExe c : String)
    (hps : shouldUsePowerShell c = false)
    (htry : (rewriteStartChrome chromeExe c).didTryChrome = false)
    (hgui : chromeGuiLaunchCheck c = false)
    (hsep : stripLeadingSlashes (jsTrim c) ≠ jsTrim c)
    (hurl : looksLikeUrl (stripLeadingSlashes (jsTrim c)) = true) :
    executeCommandPlan chromeExe (some c) none "auto" none none =
      ExecAction.reject
        ⟨false, some (urlRejectReason (stripLeadingSlashes (jsTrim c))), some ""⟩ ∧
    ∃ pre, urlRejectReason (stripLeadingSlashes (jsTrim c)) =
      pre ++ stripLeadingSlashes (jsTrim c) := by
  have htrim : jsTrim c ≠ "" := by
    intro h0
    rw [h0] at hsep
    exact hsep (by decide)
  exact ⟨executeCommandPlan_cmd_reject chromeExe c _ hps htry hgui htrim
      (normalizeCmdStart_leadingSepUrl c hsep hurl),
    ⟨"Looks like a URL with a leading \\\\ or /. " ++
      "Use the URL without the leading slash, or ask the bot to browse it. " ++
      "Example: ", rfl⟩⟩

/-- C6 counterexample: `\https://example.com/$a` is an http(s) URL with one
leading separator, yet `executeCommand` neither rejects it nor suggests a
corrected address: the `$a` sigil routes it to the PowerShell interpreter,
which executes it. -/
theorem leadingSlashUrl_counterexample :
    stripLeadingSlashes (jsTrim "\\https://example.com/$a") ≠
      jsTrim "\\https://example.com/$a" ∧
    looksLikeUrl (stripLeadingSlashes (jsTrim "\\https://example.com/$a")) = true ∧
    executeCommandPlan "chrome.exe" (some "\\https://example.com/$a") none "auto" none none =
      ExecAction.runInterpreter "powershell" "\\https://example.com/$a" :=
  ⟨by decide, by decide, by decide⟩

/-- Witness for C6 at the spec's scenario, input `\\https://example.com`. -/
theorem leadingSlashUrl_rejected_witness :
    executeCommandPlan "chrome.exe" (some "\\\\https://example.com") none "auto" none none =
      ExecAction.reject
        ⟨false,
          some (urlRejectReason (stripLeadingSlashes (jsTrim "\\\\https://example.com"))),
          some ""⟩ ∧
    ∃ pre, urlRejectReason (stripLeadingSlashes (jsTrim "\\\\https://example.com")) =
      pre ++ stripLeadingSlashes (jsTrim "\\\\https://example.com") :=
  leadingSlashUrl_rejected "chrome.exe" "\\\\https://example.com" (by decide) (by decide)
    (by decide) (by decide) (by decide)

/-! # Orchestrator theorems -/

/-- Helper: the tool-result blocks produced for one response carry exactly
the requested call ids, in order. -/
theorem processToolUses_ids (sc cfg : Bool) (exec : String → ToolInput → ToolResult)
    (st : StepState) (tus : List ToolUse) :
    (processToolUses sc cfg exec st tus).1.map (fun b => b.tool_use_id) =
      tus.map (fun tu => tu.id) := by
  induction tus generalizing st with
  | nil => rfl
  | cons tu rest ih => simp [processToolUses, ih]

/-- Helper: only a browse_website dispatch can set the stop-after-browse
flag. -/
theorem runToolUse_stopFlag (sc cfg : Bool) (exec : String → ToolInput → ToolResult)
    (st : StepState) (tu : ToolUse) (h : tu.name ≠ "browse_website") :
    (runToolUse sc cfg exec st tu).2.stopAfterBrowseSuccess =
      st.stopAfterBrowseSuccess := by
  unfold runToolUse
  dsimp only
  split_ifs <;> simp_all

/-- Helper: a response containing no browse_website request leaves the
stop-after-browse flag as it found it. -/
theorem processToolUses_stopFlag (sc cfg : Bool) (exec : String → ToolInput → ToolResult)
    (st : StepState) (tus : List ToolUse)
    (h : ∀ tu ∈ tus, tu.name ≠ "browse_website") :
    (processToolUses sc cfg exec st tus).2.stopAfterBrowseSuccess =
      st.stopAfterBrowseSuccess := by
  induction tus generalizing st with
  | nil => rfl
  | cons tu rest ih =>
    have h1 := runToolUse_stopFlag sc cfg exec st tu (h tu (by simp))
    simp only [processToolUses]
    rw [ih (runToolUse sc cfg exec st tu).2 (fun t ht => h t (by simp [ht])), h1]

/-- Helper: the reply of the terminal step is never the empty string (the
default completion message backstops empty text). -/
theorem finishRun_ne_empty (response : Response) (convo : List Msg) :
    (finishRun response convo).1 ≠ "" := by
  unfold finishRun
  dsimp only
  split
  · decide
  · assumption

/-- Helper: the terminal step appends exactly the final assistant message. -/
theorem finishRun_snd (response : Response) (convo : List Msg) :
    (finishRun response convo).2 =
      convo ++ [⟨"assistant", .ofBlocks response.content⟩] := rfl

/-- Helper: when the iteration budget is exhausted while the service still
requests tools, the loop falls through to the terminal step. -/
theorem agentLoop_fuelZero (sc cfg allowT : Bool) (exec : String → ToolInput → ToolResult)
    (svc : Nat → Except String Response) (msgs0 : List Msg) (k : Nat)
    (resp : Response) (acts : List String) (convo : List Msg) :
    agentLoop sc cfg allowT exec svc msgs0 0 k resp acts convo =
      finishRun resp convo := by
  rw [agentLoop]
  split <;> rfl

/-- Helper: one tool round of the loop, when the response requests tools,
none of them is a browse call, and the next service call succeeds: the
assistant turn and its results are appended and the loop continues with one
fewer iteration available. -/
theorem agentLoop_round (sc cfg : Bool) (exec : String → ToolInput → ToolResult)
    (svc : Nat → Except String Response) (msgs0 : List Msg) (fuel k : Nat)
    (resp next : Response) (acts : List String) (convo : List Msg)
    (hstop : resp.stop_reason = "tool_use")
    (htus : toolUsesOf resp.content ≠ [])
    (hnb : ∀ tu ∈ toolUsesOf resp.content, tu.name ≠ "browse_website")
    (hsvc : svc k = Except.ok next) :
    agentLoop sc cfg true exec svc msgs0 (fuel + 1) k resp acts convo =
      agentLoop sc cfg true exec svc msgs0 fuel (k + 1) next
        (processToolUses sc cfg exec ⟨0, acts, false⟩ (toolUsesOf resp.content)).2.executedBrowserActions
        (convo ++ [⟨"assistant", .ofBlocks resp.content⟩,
          ⟨"user", .ofResults
            (processToolUses sc cfg exec ⟨0, acts, false⟩ (toolUsesOf resp.content)).1⟩]) := by
  rw [agentLoop]
  rw [if_pos hstop]
  have hflag := processToolUses_stopFlag sc cfg exec ⟨0, acts, false⟩
    (toolUsesOf resp.content) hnb
  simp only [Bool.not_true, Bool.false_eq_true, if_false, hflag, hsvc]
  simp [List.isEmpty_iff, htus, hflag]

/-- Helper: whatever the loop returns, the conversation it hands back is the
one it was given extended by a `GoodTail` — or the untouched original
`msgs0` when a mid-run service failure discards the round's work. -/
theorem agentLoop_goodTail (sc cfg allowT : Bool) (exec : String → ToolInput → ToolResult)
    (svc : Nat → Except String Response) (msgs0 : List Msg) :
    ∀ (fuel k : Nat) (resp : Response) (acts : List String) (convo : List Msg),
      ∃ tail, GoodTail tail ∧
        ((agentLoop sc cfg allowT exec svc msgs0 fuel k resp acts convo).2 =
            convo ++ tail ∨
          (agentLoop sc cfg allowT exec svc msgs0 fuel k resp acts convo).2 = msgs0) := by
  intro fuel
  induction fuel with
  | zero =>
    intro k resp acts convo
    refine ⟨[⟨"assistant", .ofBlocks resp.content⟩], GoodTail.final resp.content, Or.inl ?_⟩
    rw [agentLoop]
    split <;> exact finishRun_snd resp convo
  | succ fuel ih =>
    intro k resp acts convo
    by_cases hstop : resp.stop_reason = "tool_use"
    · by_cases hat : allowT = true
      · subst hat
        rcases htus : toolUsesOf resp.content with _ | ⟨tu, rest⟩
        · -- no tool_use blocks: break to the terminal step
          refine ⟨[⟨"assistant", .ofBlocks resp.content⟩], GoodTail.final resp.content,
            Or.inl ?_⟩
          rw [agentLoop, if_pos hstop]
          simp [htus, finishRun_snd]
        · -- a real tool round
          have htus' : toolUsesOf resp.content ≠ [] := by rw [htus]; simp
          have hids := processToolUses_ids sc cfg exec ⟨0, acts, false⟩
            (toolUsesOf resp.content)
          rw [agentLoop, if_pos hstop]
          simp only [Bool.not_true, Bool.false_eq_true, if_false, htus]
          set pr := processToolUses sc cfg exec ⟨0, acts, false⟩ (tu :: rest) with hpr
          by_cases hflag : pr.2.stopAfterBrowseSuccess
          · refine ⟨[⟨"assistant", .ofBlocks resp.content⟩, ⟨"user", .ofResults pr.1⟩],
              GoodTail.round resp.content pr.1 [] htus' ?_ GoodTail.nil, Or.inl ?_⟩
            · rw [← htus] at hpr
              rw [hpr]
              rw [htus] at hids ⊢
              exact hids
            · simp [hflag]
          · rcases hsvc : svc k with e | next
            · exact ⟨[], GoodTail.nil, Or.inr (by simp [hflag, hsvc])⟩
            · obtain ⟨tail, hg, hcase⟩ := ih (k + 1) next pr.2.executedBrowserActions
                (convo ++ [⟨"assistant", .ofBlocks resp.content⟩, ⟨"user", .ofResults pr.1⟩])
              rcases hcase with hcase | hcase
              · refine ⟨⟨"assistant", .ofBlocks resp.content⟩ ::
                  ⟨"user", .ofResults pr.1⟩ :: tail,
                  GoodTail.round resp.content pr.1 tail htus' ?_ hg, Or.inl ?_⟩
                · rw [← htus] at hpr
                  rw [hpr]
                  rw [htus] at hids ⊢
                  exact hids
                · simp only [hflag, hsvc]
                  simp only [List.isEmpty_cons, Bool.false_eq_true, if_false]
                  rw [hcase]
                  simp
              · refine ⟨[], GoodTail.nil, Or.inr ?_⟩
                simp only [hflag, hsvc]
                simp only [List.isEmpty_cons, Bool.false_eq_true, if_false]
                exact hcase
      · have hat' : allowT = false := by
          cases allowT
          · rfl
          · exact absurd rfl hat
        subst hat'
        refine ⟨[⟨"assistant", .ofBlocks resp.content⟩], GoodTail.final resp.content,
          Or.inl ?_⟩
        rw [agentLoop, if_pos hstop]
        simp [finishRun_snd]
    · refine ⟨[⟨"assistant", .ofBlocks resp.content⟩], GoodTail.final resp.content,
        Or.inl ?_⟩
      rw [agentLoop, if_neg hstop]
      exact finishRun_snd resp convo

/-- Helper: trimming the history twice is the same as trimming it once. -/
theorem trimHistory_idem (l : List Msg) : trimHistory (trimHistory l) = trimHistory l := by
  by_cases h : l.length ≤ MAX_HISTORY_MESSAGES
  · have h1 : trimHistory l = l := by rw [trimHistory, if_pos h]
    rw [h1]
    exact h1
  · have hlen : (trimHistory l).length = MAX_HISTORY_MESSAGES := by
      rw [trimHistory, if_neg h, List.length_drop]
      omega
    conv_lhs => rw [trimHistory]
    rw [if_pos (le_of_eq hlen)]

/-- C1: for every assistant response in an orchestration run whose content
contains N ≥ 1 tool_use blocks, the orchestrator appends immediately after
that assistant message exactly one user-role message whose tool_result
blocks carry exactly the N request identifiers — in order, with no
duplicates and no omissions — before any resubmission: everything
`processWithClaude` adds to the conversation is a sequence of such
(assistant, results) pairs, optionally closed by a final assistant
message. -/
theorem toolResults_cover_requests (sc cfg allowT : Bool)
    (exec : String → ToolInput → ToolResult) (svc : Nat → Except String Response)
    (maxIterations : Nat) (messages : List Msg) :
    ∃ tail, GoodTail tail ∧
      (processWithClaude sc cfg allowT maxIterations exec svc messages).2 =
        messages ++ tail := by
  unfold processWithClaude
  rcases h0 : svc 0 with e | r
  · exact ⟨[], GoodTail.nil, by simp⟩
  · obtain ⟨tail, hg, hcase⟩ :=
      agentLoop_goodTail sc cfg allowT exec svc messages maxIterations 1 r [] messages
    rcases hcase with h | h
    · exact ⟨tail, hg, h⟩
    · exact ⟨[], GoodTail.nil, by rw [h]; simp⟩

/-- Helper: complete outcome dichotomy of the loop when every failing
service call fails with message `e`: either some consulted call threw — the
loop returns `Error: e` and the *original* `msgs0` — or the run terminated
without a throw, through the terminal step or the stop-after-browse
return. -/
theorem agentLoop_outcomes (sc cfg allowT : Bool) (exec : String → ToolInput → ToolResult)
    (svc : Nat → Except String Response) (msgs0 : List Msg) (e : String)
    (hfail : ∀ j e', svc j = Except.error e' → e' = e) :
    ∀ (fuel k : Nat) (resp : Response) (acts : List String) (convo : List Msg),
      agentLoop sc cfg allowT exec svc msgs0 fuel k resp acts convo =
          ("Error: " ++ e, msgs0) ∨
      (∃ r c, agentLoop sc cfg allowT exec svc msgs0 fuel k resp acts convo =
          finishRun r c) ∨
      (∃ c, agentLoop sc cfg allowT exec svc msgs0 fuel k resp acts convo =
          ("Browser task completed.", c)) := by
  intro fuel
  induction fuel with
  | zero =>
    intro k resp acts convo
    refine Or.inr (Or.inl ⟨resp, convo, ?_⟩)
    rw [agentLoop]
    split <;> rfl
  | succ fuel ih =>
    intro k resp acts convo
    by_cases hstop : resp.stop_reason = "tool_use"
    · by_cases hat : allowT = true
      · subst hat
        rcases htus : toolUsesOf resp.content with _ | ⟨tu, rest⟩
        · refine Or.inr (Or.inl ⟨resp, convo, ?_⟩)
          rw [agentLoop, if_pos hstop]
          simp [htus]
        · rw [agentLoop, if_pos hstop]
          simp only [Bool.not_true, Bool.false_eq_true, if_false, htus]
          set pr := processToolUses sc cfg exec ⟨0, acts, false⟩ (tu :: rest)
          by_cases hflag : pr.2.stopAfterBrowseSuccess
          · refine Or.inr (Or.inr ⟨convo ++ [⟨"assistant", .ofBlocks resp.content⟩,
              ⟨"user", .ofResults pr.1⟩], ?_⟩)
            simp [hflag]
          · rcases hsvc : svc k with e' | next
            · obtain rfl : e' = e := hfail k e' hsvc
              refine Or.inl ?_
              simp [hflag, hsvc]
            · have hrec := ih (k + 1) next pr.2.executedBrowserActions
                (convo ++ [⟨"assistant", .ofBlocks resp.content⟩, ⟨"user", .ofResults pr.1⟩])
              simpa only [List.isEmpty_cons, Bool.false_eq_true, if_false, hflag, hsvc]
                using hrec
      · have hat' : allowT = false := by
          cases allowT
          · rfl
          · exact absurd rfl hat
        subst hat'
        refine Or.inr (Or.inl ⟨resp, convo, ?_⟩)
        rw [agentLoop, if_pos hstop]
        simp
    · refine Or.inr (Or.inl ⟨resp, convo, ?_⟩)
      rw [agentLoop, if_neg hstop]

/-- C4 (amended): if any reasoning-service call of the run throws — the
first call or a mid-run resubmission — the run surfaces `Error: <message>`
as its final text, and the persisted history equals the prior history plus
only the new user message (trimmed to the bound): the user input is
persisted, but no assistant or tool message from the failed request is.
Stated as a dichotomy over runs whose service can only fail with message
`e`: every run either ends without any call throwing (a terminal-step or
stop-after-browse return), or returns exactly the error reply with the
unextended history. -/
theorem serviceError_history (sc cfg : Bool) (maxIterations : Nat)
    (exec : String → ToolInput → ToolResult) (svc : Nat → Except String Response)
    (prior : List Msg) (text e : String)
    (hfail : ∀ j e', svc j = Except.error e' → e' = e) :
    handleUserText sc cfg maxIterations exec svc prior text =
        ("Error: " ++ e, trimHistory (prior ++ [userTextMsg text])) ∨
    (∃ resp convo, handleUserText sc cfg maxIterations exec svc prior text =
        ((finishRun resp convo).1, trimHistory (finishRun resp convo).2)) ∨
    (∃ convo, handleUserText sc cfg maxIterations exec svc prior text =
        ("Browser task completed.", trimHistory convo)) := by
  unfold handleUserText processWithClaude
  rcases h0 : svc 0 with e' | r
  · obtain rfl : e' = e := hfail 0 e' h0
    left
    simp [trimHistory_idem]
  · rcases agentLoop_outcomes sc cfg true exec svc
        (trimHistory (prior ++ [userTextMsg text])) e hfail maxIterations 1 r []
        (trimHistory (prior ++ [userTextMsg text])) with h | ⟨resp, convo, h⟩ | ⟨convo, h⟩
    · left
      simp [h, trimHistory_idem]
    · refine Or.inr (Or.inl ⟨resp, convo, ?_⟩)
      simp [h]
    · refine Or.inr (Or.inr ⟨convo, ?_⟩)
      simp [h]

/-- C4 counterexample: with empty prior history, user text `"hi"`, and a
service call that throws, the persisted per-conversation history after the
request is `[user "hi"]` — not the empty history stored before the request
started, contradicting the claim's "no mutation". -/
theorem serviceError_history_counterexample :
    (handleUserText true true 25 (fun _ _ => { success := true })
        (fun _ => Except.error "socket hang up") [] "hi").2 = [userTextMsg "hi"] ∧
    [userTextMsg "hi"] ≠ ([] : List Msg) := by
  exact ⟨by decide, by decide⟩

/-- Witness for C4 at a mid-run failure: the first call succeeds with a tool
round and the resubmission throws `boom`. -/
theorem serviceError_history_witness :
    handleUserText true false 25
        (fun name _ => { success := true, output := some name })
        (fun n => if n = 0 then Except.ok ⟨"tool_use",
            [Block.toolUse ⟨"a", "take_screenshot", {}⟩]⟩
          else Except.error "boom") [] "hi" =
        ("Error: " ++ "boom", trimHistory ([] ++ [userTextMsg "hi"])) ∨
    (∃ resp convo, handleUserText true false 25
        (fun name _ => { success := true, output := some name })
        (fun n => if n = 0 then Except.ok ⟨"tool_use",
            [Block.toolUse ⟨"a", "take_screenshot", {}⟩]⟩
          else Except.error "boom") [] "hi" =
        ((finishRun resp convo).1, trimHistory (finishRun resp convo).2)) ∨
    (∃ convo, handleUserText true false 25
        (fun name _ => { success := true, output := some name })
        (fun n => if n = 0 then Except.ok ⟨"tool_use",
            [Block.toolUse ⟨"a", "take_screenshot", {}⟩]⟩
          else Except.error "boom") [] "hi" =
        ("Browser task completed.", trimHistory convo)) :=
  serviceError_history true false 25
    (fun name _ => { success := true, output := some name })
    (fun n => if n = 0 then Except.ok ⟨"tool_use",
        [Block.toolUse ⟨"a", "take_screenshot", {}⟩]⟩
      else Except.error "boom") [] "hi" "boom"
    (by
      intro j e' h
      rcases j with _ | j
      · simp at h
      · dsimp only at h
        rw [if_neg (by omega : ¬(j + 1 = 0))] at h
        injection h with h
        exact h.symm)

/-- C3 (amended): skipped-by-policy calls are never dispatched, but their
payloads differ: a deduplicated call reports success with an explanatory
note, while a call deferred by step-confirmation is marked deferred with
`success:false` and an explanatory error message (and no note). -/
theorem skippedByPolicy_payloads (sc cfg : Bool) (exec : String → ToolInput → ToolResult)
    (st : StepState) (tu : ToolUse) :
    ((sc = true ∧ 1 ≤ st.executedThisResponse) →
      runToolUse sc cfg exec st tu = (deferredResult, st) ∧
      deferredResult.success = false ∧ deferredResult.deferred = true ∧
      deferredResult.error.isSome = true ∧ deferredResult.note = none) ∧
    (∀ f, ¬(sc = true ∧ 1 ≤ st.executedThisResponse) →
      fingerprintBrowserAction tu.name tu.input = some f →
      st.executedBrowserActions.contains f = true →
      runToolUse sc cfg exec st tu = (dedupedResult (some f), st) ∧
      (dedupedResult (some f)).success = true ∧ (dedupedResult (some f)).deduped = true ∧
      ((dedupedResult (some f)).note).isSome = true) := by
  constructor
  · intro h
    refine ⟨?_, by decide, by decide, by decide, by decide⟩
    unfold runToolUse
    simp [h.1, h.2]
  · intro f hexec hfp hmem
    refine ⟨?_, rfl, rfl, rfl⟩
    have hse : (sc && decide (1 ≤ st.executedThisResponse)) = false := by
      cases hsc : sc
      · simp
      · have hle : ¬(1 ≤ st.executedThisResponse) := fun hle => hexec ⟨hsc, hle⟩
        simp [hle]
    unfold runToolUse
    dsimp only
    rw [hfp]
    simp only [Bool.not_not, hse, Bool.false_eq_true, if_false]
    rw [if_pos (show fpHit (some f) st.executedBrowserActions = true from hmem)]

/-- C3 counterexample: in a step-confirm response with two screenshot
requests, the second is skipped by policy (deferred), but its result payload
has `success:false` and carries an `error`, with no note — not the claimed
successful no-op with an explanatory note. -/
theorem skippedByPolicy_counterexample :
    (processToolUses true true (fun _ _ => { success := true, output := some "ran" })
        ⟨0, [], false⟩
        [⟨"a", "take_screenshot", {}⟩, ⟨"b", "take_screenshot", {}⟩]).1 =
      [⟨"a", { success := true, output := some "ran" }⟩, ⟨"b", deferredResult⟩] ∧
    deferredResult.success = false ∧ deferredResult.note = none ∧
    deferredResult.deferred = true ∧ deferredResult.error.isSome = true :=
  ⟨by decide, by decide, by decide, by decide, by decide⟩

/-- Witness for C3: the deferred clause at an already-executed state and the
deduped clause at a recorded browse fingerprint. -/
theorem skippedByPolicy_payloads_witness :
    (runToolUse true true (fun _ _ => { success := true })
        ⟨1, [], false⟩ ⟨"a", "take_screenshot", {}⟩ =
      (deferredResult, ⟨1, [], false⟩) ∧
      deferredResult.success = false ∧ deferredResult.deferred = true ∧
      deferredResult.error.isSome = true ∧ deferredResult.note = none) ∧
    (runToolUse true true (fun _ _ => { success := true })
        ⟨0, ["browse:https://e.com|t"], false⟩
        ⟨"b", "browse_website", ⟨"https://e.com", "t", ""⟩⟩ =
      (dedupedResult (some "browse:https://e.com|t"),
        ⟨0, ["browse:https://e.com|t"], false⟩) ∧
      (dedupedResult (some "browse:https://e.com|t")).success = true ∧
      (dedupedResult (some "browse:https://e.com|t")).deduped = true ∧
      ((dedupedResult (some "browse:https://e.com|t")).note).isSome = true) :=
  ⟨(skippedByPolicy_payloads true true (fun _ _ => { success := true })
      ⟨1, [], false⟩ ⟨"a", "take_screenshot", {}⟩).1 ⟨rfl, by decide⟩,
   (skippedByPolicy_payloads true true (fun _ _ => { success := true })
      ⟨0, ["browse:https://e.com|t"], false⟩
      ⟨"b", "browse_website", ⟨"https://e.com", "t", ""⟩⟩).2
     "browse:https://e.com|t" (by simp) (by decide) (by decide)⟩

/-- Helper: once step-confirmation has seen an execution in this response,
`runToolUse` defers the call and leaves the state untouched. -/
theorem runToolUse_deferred (sc cfg : Bool) (exec : String → ToolInput → ToolResult)
    (st : StepState) (tu : ToolUse) (h : sc = true ∧ 1 ≤ st.executedThisResponse) :
    runToolUse sc cfg exec st tu = (deferredResult, st) := by
  unfold runToolUse
  simp [h.1, h.2]

/-- Helper: a fresh fingerprint (or none at all) misses the dedup set. -/
theorem fpHit_false_of_fresh (name : String) (input : ToolInput) (acts : List String)
    (hf : ∀ f, fingerprintBrowserAction name input = some f →
      acts.contains f = false) :
    fpHit (fingerprintBrowserAction name input) acts = false := by
  rcases hfp : fingerprintBrowserAction name input with _ | f
  · rfl
  · simpa [fpHit, hfp] using hf f hfp

/-- Helper: an executable known-tool call with no recorded fingerprint is
dispatched: its payload is the executor's result and the per-response
execution counter increments. -/
theorem runToolUse_dispatch (sc cfg : Bool) (exec : String → ToolInput → ToolResult)
    (st : StepState) (tu : ToolUse)
    (hse : ¬(sc = true ∧ 1 ≤ st.executedThisResponse))
    (hknown : tu.name ∈ knownToolNames)
    (hfresh : ∀ f, fingerprintBrowserAction tu.name tu.input = some f →
      st.executedBrowserActions.contains f = false) :
    (runToolUse sc cfg exec st tu).1 = exec tu.name tu.input ∧
    (runToolUse sc cfg exec st tu).2.executedThisResponse =
      st.executedThisResponse + 1 := by
  have hse' : (sc && decide (1 ≤ st.executedThisResponse)) = false := by
    cases hsc : sc
    · simp
    · have hle : ¬(1 ≤ st.executedThisResponse) := fun hle => hse ⟨hsc, hle⟩
      simp [hle]
  obtain ⟨id1, n1, in1⟩ := tu
  simp only [knownToolNames, List.mem_cons, List.not_mem_nil, or_false] at hknown
  dsimp only at hknown hfresh ⊢
  rcases hknown with h | h | h | h | h <;> subst h <;>
    · unfold runToolUse
      simp [hse', fpHit_false_of_fresh _ in1 st.executedBrowserActions hfresh]

/-- C2 (amended): if step-confirmation is enabled and an assistant response
carries two tool-use requests, the first naming a known tool and not skipped
by fingerprint deduplication, then exactly the first is actually executed
(its payload is the executor's result), the later request is not executed
and receives the deferred payload with its explanation, and both records
carry their own call identifiers. -/
theorem stepConfirm_two_requests (cfg : Bool) (exec : String → ToolInput → ToolResult)
    (acts : List String) (t1 t2 : ToolUse)
    (h1 : t1.name ∈ knownToolNames)
    (hfresh : ∀ f, fingerprintBrowserAction t1.name t1.input = some f →
      acts.contains f = false) :
    (processToolUses true cfg exec ⟨0, acts, false⟩ [t1, t2]).1 =
      [⟨t1.id, exec t1.name t1.input⟩, ⟨t2.id, deferredResult⟩] ∧
    (processToolUses true cfg exec ⟨0, acts, false⟩ [t1, t2]).2.executedThisResponse =
      1 := by
  obtain ⟨hv1, he1⟩ := runToolUse_dispatch true cfg exec ⟨0, acts, false⟩ t1
    (by simp) h1 hfresh
  have hd2 := runToolUse_deferred true cfg exec
    (runToolUse true cfg exec ⟨0, acts, false⟩ t1).2 t2 ⟨rfl, by rw [he1]⟩
  constructor
  · simp [processToolUses, hv1, hd2]
  · simp [processToolUses, hd2, he1]

/-- C2 counterexample: a real two-round run with step-confirmation enabled
whose second assistant response carries two tool-use requests; the first
request is skipped by fingerprint deduplication (its browse action already
ran in round one) and the *second* executes — so it is not the first in
emission order that executes, and no later request is deferred. -/
theorem stepConfirm_counterexample :
    processWithClaude true false true 25
        (fun name _ => { success := true, output := some name })
        (fun n => if n = 0 then Except.ok ⟨"tool_use",
            [Block.toolUse ⟨"a", "browse_website", ⟨"https://s.com", "t", ""⟩⟩]⟩
          else if n = 1 then Except.ok ⟨"tool_use",
            [Block.toolUse ⟨"b", "browse_website", ⟨"https://s.com", "t", ""⟩⟩,
             Block.toolUse ⟨"c", "take_screenshot", ⟨"", "", ""⟩⟩]⟩
          else Except.ok ⟨"end_turn", [Block.text "done"]⟩)
        [userTextMsg "open s"] =
      ("done",
        [userTextMsg "open s",
         ⟨"assistant", .ofBlocks
           [Block.toolUse ⟨"a", "browse_website", ⟨"https://s.com", "t", ""⟩⟩]⟩,
         ⟨"user", .ofResults
           [⟨"a", { success := true, output := some "browse_website" }⟩]⟩,
         ⟨"assistant", .ofBlocks
           [Block.toolUse ⟨"b", "browse_website", ⟨"https://s.com", "t", ""⟩⟩,
            Block.toolUse ⟨"c", "take_screenshot", ⟨"", "", ""⟩⟩]⟩,
         ⟨"user", .ofResults
           [⟨"b", dedupedResult (some "browse:https://s.com|t")⟩,
            ⟨"c", { success := true, output := some "take_screenshot" }⟩]⟩,
         ⟨"assistant", .ofBlocks [Block.text "done"]⟩]) ∧
    (dedupedResult (some "browse:https://s.com|t")).deferred = false ∧
    ({ success := true, output := some "take_screenshot" } : ToolResult) ≠
      deferredResult :=
  ⟨by decide, by decide, by decide⟩

/-- Witness for C2: two requests under step-confirmation, a command then a
screenshot; the first executes, the second is deferred, ids preserved. -/
theorem stepConfirm_two_requests_witness :
    (processToolUses true true (fun name _ => { success := true, output := some name })
        ⟨0, [], false⟩
        [⟨"x", "execute_command", ⟨"", "", "dir"⟩⟩, ⟨"y", "take_screenshot", {}⟩]).1 =
      [⟨"x", { success := true, output := some "execute_command" }⟩,
       ⟨"y", deferredResult⟩] ∧
    (processToolUses true true (fun name _ => { success := true, output := some name })
        ⟨0, [], false⟩
        [⟨"x", "execute_command", ⟨"", "", "dir"⟩⟩, ⟨"y", "take_screenshot", {}⟩]).2.executedThisResponse = 1 :=
  stepConfirm_two_requests true (fun name _ => { success := true, output := some name })
    [] ⟨"x", "execute_command", ⟨"", "", "dir"⟩⟩ ⟨"y", "take_screenshot", {}⟩
    (by decide)
    (fun f hf => by
      rw [show fingerprintBrowserAction "execute_command" ⟨"", "", "dir"⟩ = none
        from by decide] at hf
      cases hf)

/-- C7 (amended): within a run, a browse_website request whose fingerprint
(identical url and task) was already recorded as executed successfully is
not dispatched to the browser bridge again when it is considered executable
(step-confirmation has not already executed a call earlier in its own
response): independently of the executor, it returns the deduped payload —
which reports success — and leaves the loop state unchanged.  (A duplicate
arriving after an execution in the same step-confirm response is deferred
instead; in neither case is the bridge invoked.) -/
theorem dedupSecondBrowse (sc cfg : Bool) (exec : String → ToolInput → ToolResult)
    (st : StepState) (tu : ToolUse) (f : String)
    (_hname : tu.name = "browse_website")
    (hfp : fingerprintBrowserAction tu.name tu.input = some f)
    (hmem : st.executedBrowserActions.contains f = true)
    (hexec : ¬(sc = true ∧ 1 ≤ st.executedThisResponse)) :
    runToolUse sc cfg exec st tu = (dedupedResult (some f), st) ∧
    (dedupedResult (some f)).success = true ∧
    (dedupedResult (some f)).deduped = true := by
  refine ⟨?_, rfl, rfl⟩
  have hse : (sc && decide (1 ≤ st.executedThisResponse)) = false := by
    cases hsc : sc
    · simp
    · have hle : ¬(1 ≤ st.executedThisResponse) := fun hle => hexec ⟨hsc, hle⟩
      simp [hle]
  unfold runToolUse
  dsimp only
  rw [hfp]
  simp only [Bool.not_not, hse, Bool.false_eq_true, if_false]
  rw [if_pos (show fpHit (some f) st.executedBrowserActions = true from hmem)]

/-- C7 counterexample: a run whose single assistant response requests the
same browse (same url and task) twice under step-confirmation.  The first
executes successfully; the second is *not* dispatched, but its payload is
the deferred one — `success:false`, not marked deduped — contradicting the
claim that it receives a deduped payload reporting success. -/
theorem dedupSecondBrowse_counterexample :
    processWithClaude true true true 25
        (fun name _ => { success := true, output := some name })
        (fun n => if n = 0 then Except.ok ⟨"tool_use",
            [Block.toolUse ⟨"a", "browse_website", ⟨"https://s.com", "t", ""⟩⟩,
             Block.toolUse ⟨"b", "browse_website", ⟨"https://s.com", "t", ""⟩⟩]⟩
          else Except.ok ⟨"end_turn", [Block.text "done"]⟩)
        [userTextMsg "go"] =
      ("Browser task completed.",
        [userTextMsg "go",
         ⟨"assistant", .ofBlocks
           [Block.toolUse ⟨"a", "browse_website", ⟨"https://s.com", "t", ""⟩⟩,
            Block.toolUse ⟨"b", "browse_website", ⟨"https://s.com", "t", ""⟩⟩]⟩,
         ⟨"user", .ofResults
           [⟨"a", { success := true, output := some "browse_website" }⟩,
            ⟨"b", deferredResult⟩]⟩]) ∧
    deferredResult.deduped = false ∧ deferredResult.success = false :=
  ⟨by decide, by decide, by decide⟩

/-- Witness for C7: a browse of an already-recorded fingerprint at the start
of a fresh response returns the deduped success payload unchanged state. -/
theorem dedupSecondBrowse_witness :
    runToolUse true true (fun _ _ => { success := true, output := some "fresh" })
        ⟨0, ["browse:https://s.com|t"], false⟩
        ⟨"b", "browse_website", ⟨"https://s.com", "t", ""⟩⟩ =
      (dedupedResult (some "browse:https://s.com|t"),
        ⟨0, ["browse:https://s.com|t"], false⟩) ∧
    (dedupedResult (some "browse:https://s.com|t")).success = true ∧
    (dedupedResult (some "browse:https://s.com|t")).deduped = true :=
  dedupSecondBrowse true true (fun _ _ => { success := true, output := some "fresh" })
    ⟨0, ["browse:https://s.com|t"], false⟩
    ⟨"b", "browse_website", ⟨"https://s.com", "t", ""⟩⟩ "browse:https://s.com|t"
    rfl (by decide) (by decide) (by simp)

/-- Helper: existential form of one tool round, naming the produced result
blocks and updated dedup set. -/
theorem agentLoop_round_ex (sc cfg : Bool) (exec : String → ToolInput → ToolResult)
    (svc : Nat → Except String Response) (msgs0 : List Msg) (fuel k : Nat)
    (resp next : Response) (acts : List String) (convo : List Msg)
    (hstop : resp.stop_reason = "tool_use")
    (htus : toolUsesOf resp.content ≠ [])
    (hnb : ∀ tu ∈ toolUsesOf resp.content, tu.name ≠ "browse_website")
    (hsvc : svc k = Except.ok next) :
    ∃ (rs : List ToolResultBlock) (acts' : List String),
      agentLoop sc cfg true exec svc msgs0 (fuel + 1) k resp acts convo =
        agentLoop sc cfg true exec svc msgs0 fuel (k + 1) next acts'
          (convo ++ [⟨"assistant", .ofBlocks resp.content⟩, ⟨"user", .ofResults rs⟩]) :=
  ⟨_, _, agentLoop_round sc cfg exec svc msgs0 fuel k resp next acts convo
    hstop htus hnb hsvc⟩

/-- C8 (amended): with maxIterations = 3 and a reasoning service whose every
response requests at least one tool call, none of which is a browse_website
call (so the stop-after-successful-browse early exit cannot fire), the loop
performs exactly 3 tool-execution rounds — the conversation gains exactly
three (assistant, tool-results) pairs followed by the final assistant
message — then terminates with a non-empty final text (the default
completion message backstops a response with no text). -/
theorem threeIterations_run (sc cfg : Bool) (exec : String → ToolInput → ToolResult)
    (svc : Nat → Except String Response) (R : Nat → Response) (msgs : List Msg)
    (hsvc : ∀ n, svc n = Except.ok (R n))
    (hstop : ∀ n, (R n).stop_reason = "tool_use")
    (htus : ∀ n, toolUsesOf (R n).content ≠ [])
    (hnb : ∀ n, ∀ tu ∈ toolUsesOf (R n).content, tu.name ≠ "browse_website") :
    ∃ r0 r1 r2 : List ToolResultBlock,
      (processWithClaude sc cfg true 3 exec svc msgs).2 =
        msgs ++ [⟨"assistant", .ofBlocks (R 0).content⟩, ⟨"user", .ofResults r0⟩,
                 ⟨"assistant", .ofBlocks (R 1).content⟩, ⟨"user", .ofResults r1⟩,
                 ⟨"assistant", .ofBlocks (R 2).content⟩, ⟨"user", .ofResults r2⟩,
                 ⟨"assistant", .ofBlocks (R 3).content⟩] ∧
      (processWithClaude sc cfg true 3 exec svc msgs).1 ≠ "" := by
  have hrun : processWithClaude sc cfg true 3 exec svc msgs =
      agentLoop sc cfg true exec svc msgs 3 1 (R 0) [] msgs := by
    unfold processWithClaude
    rw [hsvc 0]
  obtain ⟨r0, a1, h1⟩ := agentLoop_round_ex sc cfg exec svc msgs 2 1 (R 0) (R 1) [] msgs
    (hstop 0) (htus 0) (hnb 0) (hsvc 1)
  obtain ⟨r1, a2, h2⟩ := agentLoop_round_ex sc cfg exec svc msgs 1 2 (R 1) (R 2) a1
    (msgs ++ [⟨"assistant", .ofBlocks (R 0).content⟩, ⟨"user", .ofResults r0⟩])
    (hstop 1) (htus 1) (hnb 1) (hsvc 2)
  obtain ⟨r2, a3, h3⟩ := agentLoop_round_ex sc cfg exec svc msgs 0 3 (R 2) (R 3) a2
    ((msgs ++ [⟨"assistant", .ofBlocks (R 0).content⟩, ⟨"user", .ofResults r0⟩]) ++
      [⟨"assistant", .ofBlocks (R 1).content⟩, ⟨"user", .ofResults r1⟩])
    (hstop 2) (htus 2) (hnb 2) (hsvc 3)
  have hz := agentLoop_fuelZero sc cfg true exec svc msgs 4 (R 3) a3
    (((msgs ++ [⟨"assistant", .ofBlocks (R 0).content⟩, ⟨"user", .ofResults r0⟩]) ++
       [⟨"assistant", .ofBlocks (R 1).content⟩, ⟨"user", .ofResults r1⟩]) ++
      [⟨"assistant", .ofBlocks (R 2).content⟩, ⟨"user", .ofResults r2⟩])
  have htotal := (((hrun.trans h1).trans h2).trans h3).trans hz
  refine ⟨r0, r1, r2, ?_, ?_⟩
  · rw [htotal, finishRun_snd]
    simp
  · rw [htotal]
    exact finishRun_ne_empty _ _

/-- C8 counterexample: maxIterations = 3 and a service that always requests
a (browse) tool call, under the default stop-after-successful-browse
configuration: the run ends after a single tool-execution round — the
history gains one (assistant, results) pair, 3 messages in total instead of
the 8 that three rounds would produce — with the fixed completion message. -/
theorem threeIterations_counterexample :
    processWithClaude true true true 3
        (fun name _ => { success := true, output := some name })
        (fun _ => Except.ok ⟨"tool_use",
          [Block.toolUse ⟨"a", "browse_website", ⟨"https://s.com", "t", ""⟩⟩]⟩)
        [userTextMsg "go"] =
      ("Browser task completed.",
        [userTextMsg "go",
         ⟨"assistant", .ofBlocks
           [Block.toolUse ⟨"a", "browse_website", ⟨"https://s.com", "t", ""⟩⟩]⟩,
         ⟨"user", .ofResults
           [⟨"a", { success := true, output := some "browse_website" }⟩]⟩]) ∧
    (processWithClaude true true true 3
        (fun name _ => { success := true, output := some name })
        (fun _ => Except.ok ⟨"tool_use",
          [Block.toolUse ⟨"a", "browse_website", ⟨"https://s.com", "t", ""⟩⟩]⟩)
        [userTextMsg "go"]).2.length = 3 :=
  ⟨by decide, by decide⟩

/-- Witness for C8: a constant execute_command-requesting service runs
exactly three rounds and returns the default completion text. -/
theorem threeIterations_run_witness :
    (∃ r0 r1 r2 : List ToolResultBlock,
      (processWithClaude true true true 3
          (fun name _ => { success := true, output := some name })
          (fun _ => Except.ok ⟨"tool_use",
            [Block.toolUse ⟨"a", "execute_command", ⟨"", "", "dir"⟩⟩]⟩)
          [userTextMsg "go"]).2 =
        [userTextMsg "go"] ++
          [⟨"assistant", .ofBlocks [Block.toolUse ⟨"a", "execute_command", ⟨"", "", "dir"⟩⟩]⟩,
           ⟨"user", .ofResults r0⟩,
           ⟨"assistant", .ofBlocks [Block.toolUse ⟨"a", "execute_command", ⟨"", "", "dir"⟩⟩]⟩,
           ⟨"user", .ofResults r1⟩,
           ⟨"assistant", .ofBlocks [Block.toolUse ⟨"a", "execute_command", ⟨"", "", "dir"⟩⟩]⟩,
           ⟨"user", .ofResults r2⟩,
           ⟨"assistant", .ofBlocks [Block.toolUse ⟨"a", "execute_command", ⟨"", "", "dir"⟩⟩]⟩] ∧
      (processWithClaude true true true 3
          (fun name _ => { success := true, output := some name })
          (fun _ => Except.ok ⟨"tool_use",
            [Block.toolUse ⟨"a", "execute_command", ⟨"", "", "dir"⟩⟩]⟩)
          [userTextMsg "go"]).1 ≠ "") :=
  threeIterations_run true true
    (fun name _ => { success := true, output := some name })
    (fun _ => Except.ok ⟨"tool_use",
      [Block.toolUse ⟨"a", "execute_command", ⟨"", "", "dir"⟩⟩]⟩)
    (fun _ => ⟨"tool_use", [Block.toolUse ⟨"a", "execute_command", ⟨"", "", "dir"⟩⟩]⟩)
    [userTextMsg "go"]
    (fun _ => rfl) (fun _ => rfl) (fun _ => by simp [toolUsesOf])
    (fun _ tu htu => by
      simp only [toolUsesOf, List.filterMap_cons, List.filterMap_nil] at htu
      simp only [List.mem_singleton] at htu
      subst htu
      decide)
